import Mathlib

/-!
A shallow embedding of `micro-module.h`, a header-only C99 library for
loading and unloading runtime plugin modules.

The registry (`MicroModule.modules`, a singly linked list of
`MicroModuleEntry` in the C source) is modelled as a Lean list whose head
is the most recently inserted node, exactly as in the source.  The
dynamic-loader environment is made explicit:

* a candidate file is an `Option ModuleFile` — `none` models a failing
  `dlmopen`, and a `ModuleFile` records the fresh handle returned by
  `dlmopen`, whether `dlsym` resolves the configured init / exit / name
  symbols, the resolved module name, and the value the module's init
  entry point returns;
* `Env.closeFails h` tells whether `dlclose` on handle `h` returns
  non-zero, and `Env.mallocFails` whether `MICRO_MODULE_MALLOC` returns
  `NULL`.

Every operation returns the C `int` result, the new registry, and a
trace of observable events (exit entry point called, `dlclose` invoked,
registry slot written, init entry point called) in the order the C code
performs them, so that ordering properties can be stated about traces.
-/

namespace MicroModuleLib

/-- Status codes from micro-module.h. -/
def MICRO_MODULE_OK : Int := 0

def MICRO_MODULE_ERROR_IS_NULL : Int := -1

def MICRO_MODULE_ERROR_OPEN_MODULES_DIR : Int := -2

def MICRO_MODULE_ERROR_CLOSE_MODULES_DIR : Int := -3

def MICRO_MODULE_ERROR_LOCATING_INIT_SYMBOL : Int := -4

def MICRO_MODULE_ERROR_LOCATING_EXIT_SYMBOL : Int := -5

def MICRO_MODULE_ERROR_LOCATING_NAME_SYMBOL : Int := -6

def MICRO_MODULE_ERROR_OPENING_MODULE : Int := -7

def MICRO_MODULE_ERROR_CLOSING_MODULE : Int := -8

def MICRO_MODULE_ERROR_ALLOCATING_MEMORY : Int := -9

def MICRO_MODULE_ERROR_MODULE_NOT_REGISTERED : Int := -10

def MICRO_MODULE_ERROR_ARG_NULL : Int := -11

/-- One registry record (`MicroModuleEntry` in the C source): the module
name resolved from the mapped image and the opaque `dlopen` handle.  The
stored `init_fn`/`exit_fn` pointers are modelled through the events that
calling them emits, keyed by the owning handle. -/
structure MicroModuleEntry where
  name : String
  dlhandler : Nat
  deriving DecidableEq, Repr

/-- What the dynamic loader exposes for one successfully `dlmopen`ed
file: the fresh handle, whether each configured symbol resolves
(`nameSym` carries the resolved identifier string when present), and the
value the module's init entry point returns when invoked. -/
structure ModuleFile where
  dlhandler : Nat
  initSym : Bool
  exitSym : Bool
  nameSym : Option String
  initRet : Int
  deriving DecidableEq, Repr

/-- Observable actions of the library, in program order: a module's exit
entry point is invoked, `dlclose` is invoked on a handle, a module is
written into the registry (`it->module = module` or list insertion), a
module's init entry point is invoked.  Handles identify the module the
entry points belong to. -/
inductive Event where
  | callExit (h : Nat)
  | closeHandle (h : Nat)
  | registerModule (h : Nat)
  | callInit (h : Nat)
  deriving DecidableEq, Repr

/-- The platform environment: which `dlclose` calls fail and whether
`MICRO_MODULE_MALLOC` fails. -/
structure Env where
  closeFails : Nat → Bool
  mallocFails : Bool

/-- First entry whose `name` equals `nm`, as found by the `strcmp` scan
loops of the C source. -/
def findByName (nm : String) : List MicroModuleEntry → Option MicroModuleEntry
  | [] => none
  | e :: rest => if e.name = nm then some e else findByName nm rest

/-- Replace the first entry named `newMod.name` by `newMod`
(`it->module = module` in `micro_module_init`). -/
def replaceFirst (newMod : MicroModuleEntry) :
    List MicroModuleEntry → List MicroModuleEntry
  | [] => []
  | e :: rest =>
    if e.name = newMod.name then newMod :: rest
    else e :: replaceFirst newMod rest

/-- Remove the first entry named `nm` (the unlink performed by
`micro_module_exit`). -/
def removeFirst (nm : String) :
    List MicroModuleEntry → List MicroModuleEntry
  | [] => []
  | e :: rest => if e.name = nm then rest else e :: removeFirst nm rest

/-- Outcome of the registry scan of `micro_module_init` (lines 315–336
of the source): the name is not yet registered; or it is and `dlclose`
of the old handle failed (the function returns early, registry
untouched); or it is and the old entry was exited, closed and replaced
in place. -/
inductive ScanResult where
  | notFound
  | closeFailed (evts : List Event)
  | replaced (reg : List MicroModuleEntry) (evts : List Event)
  deriving Repr

/-- The `while (it)` scan of `micro_module_init`: on the first entry
with the new module's name, call its exit entry point, `dlclose` its
handle; if the close fails stop there, otherwise overwrite the slot with
the new module and stop. -/
def scanReplace (env : Env) (newMod : MicroModuleEntry) :
    List MicroModuleEntry → ScanResult
  | [] => .notFound
  | e :: rest =>
    if e.name = newMod.name then
      if env.closeFails e.dlhandler then
        .closeFailed [.callExit e.dlhandler, .closeHandle e.dlhandler]
      else
        .replaced (newMod :: rest)
          [.callExit e.dlhandler, .closeHandle e.dlhandler,
           .registerModule newMod.dlhandler]
    else
      match scanReplace env newMod rest with
      | .notFound => .notFound
      | .closeFailed evts => .closeFailed evts
      | .replaced reg evts => .replaced (e :: reg) evts

/-- `micro_module_init(mm, filename, arg)` for a non-NULL `mm`, acting
on registry `reg`; `file` is what the dynamic loader yields for
`filename` (`none`: `dlmopen` failed).  Returns the C result code, the
new registry, and the event trace.  Mirrors lines 276–362 of the
source: open, resolve init/exit/name in that order (closing the new
handle on a resolution failure), scan for an already-registered name
(exiting, closing and replacing the old entry in place; on a failed
close of the old handle, close the new handle and fail), otherwise push
a fresh node, and finally call the new module's init entry point,
returning its value verbatim when non-zero. -/
def micro_module_init (env : Env) (reg : List MicroModuleEntry)
    (file : Option ModuleFile) : Int × List MicroModuleEntry × List Event :=
  match file with
  | none => (MICRO_MODULE_ERROR_OPENING_MODULE, reg, [])
  | some f =>
    if f.initSym = false then
      (MICRO_MODULE_ERROR_LOCATING_INIT_SYMBOL, reg, [.closeHandle f.dlhandler])
    else if f.exitSym = false then
      (MICRO_MODULE_ERROR_LOCATING_EXIT_SYMBOL, reg, [.closeHandle f.dlhandler])
    else
      match f.nameSym with
      | none =>
        (MICRO_MODULE_ERROR_LOCATING_NAME_SYMBOL, reg, [.closeHandle f.dlhandler])
      | some nm =>
        let newMod : MicroModuleEntry := ⟨nm, f.dlhandler⟩
        match scanReplace env newMod reg with
        | .closeFailed evts =>
          (MICRO_MODULE_ERROR_CLOSING_MODULE, reg,
           evts ++ [.closeHandle f.dlhandler])
        | .replaced reg2 evts =>
          (f.initRet, reg2, evts ++ [.callInit f.dlhandler])
        | .notFound =>
          if env.mallocFails then
            (MICRO_MODULE_ERROR_ALLOCATING_MEMORY, reg, [])
          else
            (f.initRet, newMod :: reg,
             [.registerModule newMod.dlhandler, .callInit f.dlhandler])

/-- The search-and-unlink body of `micro_module_exit` (both the head
special case and the `prev`/`it` loop of lines 421–451): on the first
entry named `nm`, call its exit entry point and `dlclose` its handle; a
failed close leaves the entry registered and fails, otherwise the node
is unlinked and freed. -/
def exitRemove (env : Env) (nm : String) :
    List MicroModuleEntry → Int × List MicroModuleEntry × List Event
  | [] => (MICRO_MODULE_ERROR_MODULE_NOT_REGISTERED, [], [])
  | e :: rest =>
    if e.name = nm then
      if env.closeFails e.dlhandler then
        (MICRO_MODULE_ERROR_CLOSING_MODULE, e :: rest,
         [.callExit e.dlhandler, .closeHandle e.dlhandler])
      else
        (MICRO_MODULE_OK, rest, [.callExit e.dlhandler, .closeHandle e.dlhandler])
    else
      let r := exitRemove env nm rest
      (r.1, e :: r.2.1, r.2.2)

/-- `micro_module_exit(mm, module_name, arg)` for a non-NULL `mm`, on
registry `reg`; `module_name = none` models a NULL name pointer.
Mirrors lines 412–452: an empty registry fails with
MODULE_NOT_REGISTERED before the NULL check of `module_name`, a NULL
name then fails with ARG_NULL, and otherwise the first matching entry is
exited, closed and removed. -/
def micro_module_exit (env : Env) (reg : List MicroModuleEntry)
    (module_name : Option String) : Int × List MicroModuleEntry × List Event :=
  match reg with
  | [] => (MICRO_MODULE_ERROR_MODULE_NOT_REGISTERED, [], [])
  | _ :: _ =>
    match module_name with
    | none => (MICRO_MODULE_ERROR_ARG_NULL, reg, [])
    | some nm => exitRemove env nm reg

/-- The `while (it)` loop of `micro_module_exit_all`: walk the saved
`next` chain of the registry as it was on entry (its name sequence) and
call `micro_module_exit` on each name, stopping at the first failure. -/
def exitAllLoop (env : Env) (names : List String)
    (reg : List MicroModuleEntry) : Int × List MicroModuleEntry × List Event :=
  match names with
  | [] => (MICRO_MODULE_OK, reg, [])
  | nm :: rest =>
    let r := micro_module_exit env reg (some nm)
    if r.1 ≠ MICRO_MODULE_OK then r
    else
      let r2 := exitAllLoop env rest r.2.1
      (r2.1, r2.2.1, r.2.2 ++ r2.2.2)

/-- `micro_module_exit_all(mm, arg)` for a non-NULL `mm` (lines
454–473): unload every module in registry order, return the first
failure immediately, and on full success set `mm->modules = NULL`. -/
def micro_module_exit_all (env : Env) (reg : List MicroModuleEntry) :
    Int × List MicroModuleEntry × List Event :=
  let r := exitAllLoop env (reg.map MicroModuleEntry.name) reg
  if r.1 = MICRO_MODULE_OK then (MICRO_MODULE_OK, [], r.2.2) else r

/-- The `fts_read` loop of `micro_module_init_all` (lines 375–404) over
the ordered depth-1 candidate files the directory enumerator yields:
load each file in order and stop at the first failure, returning it. -/
def initAllLoop (env : Env) (reg : List MicroModuleEntry) :
    List (Option ModuleFile) → Int × List MicroModuleEntry × List Event
  | [] => (MICRO_MODULE_OK, reg, [])
  | f :: rest =>
    let r := micro_module_init env reg f
    if r.1 ≠ MICRO_MODULE_OK then r
    else
      let r2 := initAllLoop env r.2.1 rest
      (r2.1, r2.2.1, r.2.2 ++ r2.2.2)

/-- `micro_module_init_all(mm, modules_dir, arg)` for a non-NULL `mm`
(lines 364–410).  `ftsOpenOk`/`ftsCloseOk` model whether `fts_open` and
`fts_close` succeed; `files` is the ordered sequence of candidate file
paths the enumerator produces, each resolved by the loader.  A failing
`fts_close` is reported only when the load loop itself succeeded. -/
def micro_module_init_all (env : Env) (reg : List MicroModuleEntry)
    (ftsOpenOk : Bool) (files : List (Option ModuleFile)) (ftsCloseOk : Bool) :
    Int × List MicroModuleEntry × List Event :=
  if ftsOpenOk = false then (MICRO_MODULE_ERROR_OPEN_MODULES_DIR, reg, [])
  else
    let r := initAllLoop env reg files
    if ftsCloseOk = false ∧ r.1 = MICRO_MODULE_OK then
      (MICRO_MODULE_ERROR_CLOSE_MODULES_DIR, r.2.1, r.2.2)
    else r

/-- Number of registry entries carrying name `nm`. -/
def countName (nm : String) (reg : List MicroModuleEntry) : Nat :=
  (reg.filter (fun e => e.name = nm)).length

/-- The registry's name-uniqueness invariant: each name appears in at
most one entry. -/
def uniqueNames (reg : List MicroModuleEntry) : Prop :=
  (reg.map MicroModuleEntry.name).Nodup

instance (reg : List MicroModuleEntry) : Decidable (uniqueNames reg) := by
  unfold uniqueNames; infer_instance

/-- Scans a trace from the left: every `closeHandle h` must be preceded
by a `callExit h`.  Once an exit of `h` has been observed all later
closes of `h` are legitimate. -/
def closeOnlyAfterExit (h : Nat) : List Event → Bool
  | [] => true
  | Event.callExit h₂ :: rest =>
    if h₂ = h then true else closeOnlyAfterExit h rest
  | Event.closeHandle h₂ :: rest =>
    if h₂ = h then false else closeOnlyAfterExit h rest
  | _ :: rest => closeOnlyAfterExit h rest

/-! ## Characterizations of the scan loops -/

theorem findByName_eq_none (nm : String) (reg : List MicroModuleEntry) :
    findByName nm reg = none ↔ nm ∉ reg.map MicroModuleEntry.name := by
  induction reg with
  | nil => simp [findByName]
  | cons e rest ih =>
    by_cases h : e.name = nm
    · simp [findByName, h]
    · simp only [findByName, h, if_false, ih, List.map_cons, List.mem_cons]
      constructor
      · intro hnot hor
        rcases hor with h₂ | h₂
        · exact h h₂.symm
        · exact hnot h₂
      · intro hnot h₂
        exact hnot (Or.inr h₂)

theorem replaceFirst_map_name (newMod : MicroModuleEntry)
    (reg : List MicroModuleEntry) :
    (replaceFirst newMod reg).map MicroModuleEntry.name =
      reg.map MicroModuleEntry.name := by
  induction reg with
  | nil => rfl
  | cons e rest ih =>
    by_cases h : e.name = newMod.name
    · simp [replaceFirst, h]
    · simp [replaceFirst, h, ih]

theorem removeFirst_sublist (nm : String) (reg : List MicroModuleEntry) :
    (removeFirst nm reg).Sublist reg := by
  induction reg with
  | nil => simp [removeFirst]
  | cons e rest ih =>
    by_cases h : e.name = nm
    · simp [removeFirst, h]
    · simpa [removeFirst, h] using ih.cons₂ e

/-- Full characterization of the registry scan of `micro_module_init`
in terms of the first entry carrying the new module's name. -/
theorem scanReplace_spec (env : Env) (newMod : MicroModuleEntry)
    (reg : List MicroModuleEntry) :
    scanReplace env newMod reg =
      match findByName newMod.name reg with
      | none => ScanResult.notFound
      | some old =>
        if env.closeFails old.dlhandler then
          ScanResult.closeFailed
            [Event.callExit old.dlhandler, Event.closeHandle old.dlhandler]
        else
          ScanResult.replaced (replaceFirst newMod reg)
            [Event.callExit old.dlhandler, Event.closeHandle old.dlhandler,
             Event.registerModule newMod.dlhandler] := by
  induction reg with
  | nil => rfl
  | cons e rest ih =>
    by_cases h : e.name = newMod.name
    · by_cases hc : env.closeFails e.dlhandler
      · simp [scanReplace, findByName, h, hc]
      · simp [scanReplace, findByName, replaceFirst, h, hc]
    · rw [scanReplace, if_neg h, ih, findByName, if_neg h]
      cases hfind : findByName newMod.name rest with
      | none => simp
      | some old =>
        by_cases hc : env.closeFails old.dlhandler
        · simp [hc]
        · simp [hc, replaceFirst, h]

/-- Full characterization of the search-and-unlink body of
`micro_module_exit` in terms of the first entry named `nm`. -/
theorem exitRemove_spec (env : Env) (nm : String)
    (reg : List MicroModuleEntry) :
    exitRemove env nm reg =
      match findByName nm reg with
      | none => (MICRO_MODULE_ERROR_MODULE_NOT_REGISTERED, reg, [])
      | some old =>
        if env.closeFails old.dlhandler then
          (MICRO_MODULE_ERROR_CLOSING_MODULE, reg,
           [Event.callExit old.dlhandler, Event.closeHandle old.dlhandler])
        else
          (MICRO_MODULE_OK, removeFirst nm reg,
           [Event.callExit old.dlhandler, Event.closeHandle old.dlhandler]) := by
  induction reg with
  | nil => rfl
  | cons e rest ih =>
    by_cases h : e.name = nm
    · by_cases hc : env.closeFails e.dlhandler
      · simp [exitRemove, findByName, h, hc]
      · simp [exitRemove, findByName, removeFirst, h, hc]
    · rw [exitRemove, if_neg h, ih, findByName, if_neg h]
      cases hfind : findByName nm rest with
      | none => simp
      | some old =>
        by_cases hc : env.closeFails old.dlhandler
        · simp [hc]
        · simp [hc, removeFirst, h]

theorem mem_map_name_of_findByName {nm : String} {reg : List MicroModuleEntry}
    {old : MicroModuleEntry} (hfind : findByName nm reg = some old) :
    nm ∈ reg.map MicroModuleEntry.name := by
  by_contra hmem
  rw [← findByName_eq_none nm reg] at hmem
  rw [hmem] at hfind
  exact Option.noConfusion hfind

theorem countName_eq_count (nm : String) (reg : List MicroModuleEntry) :
    countName nm reg = (reg.map MicroModuleEntry.name).count nm := by
  induction reg with
  | nil => rfl
  | cons e rest ih =>
    by_cases h : e.name = nm
    · simp [countName, List.count_cons, h, ← ih]
    · have h₂ : ¬nm = e.name := fun hx => h hx.symm
      simp [countName, List.count_cons, h, h₂, ← ih]

/-! ## Trace-ordering helpers -/

theorem closeOnlyAfterExit_append (h : Nat) (t₁ t₂ : List Event)
    (h₁ : closeOnlyAfterExit h t₁ = true)
    (h₂ : closeOnlyAfterExit h t₂ = true) :
    closeOnlyAfterExit h (t₁ ++ t₂) = true := by
  induction t₁ with
  | nil => simpa using h₂
  | cons e rest ih =>
    cases e with
    | callExit h₃ =>
      by_cases hh : h₃ = h
      · simp [closeOnlyAfterExit, hh]
      · rw [List.cons_append, closeOnlyAfterExit, if_neg hh]
        rw [closeOnlyAfterExit, if_neg hh] at h₁
        exact ih h₁
    | closeHandle h₃ =>
      by_cases hh : h₃ = h
      · rw [closeOnlyAfterExit, if_pos hh] at h₁
        exact Bool.noConfusion h₁
      · rw [List.cons_append, closeOnlyAfterExit, if_neg hh]
        rw [closeOnlyAfterExit, if_neg hh] at h₁
        exact ih h₁
    | registerModule h₃ =>
      rw [List.cons_append]
      show closeOnlyAfterExit h (rest ++ t₂) = true
      exact ih h₁
    | callInit h₃ =>
      rw [List.cons_append]
      show closeOnlyAfterExit h (rest ++ t₂) = true
      exact ih h₁

theorem closeOnlyAfterExit_pair (h o : Nat) :
    closeOnlyAfterExit h [Event.callExit o, Event.closeHandle o] = true := by
  by_cases ho : o = h <;> simp [closeOnlyAfterExit, ho]

theorem closeOnlyAfterExit_exit (env : Env) (reg : List MicroModuleEntry)
    (module_name : Option String) (h : Nat) :
    closeOnlyAfterExit h (micro_module_exit env reg module_name).2.2 = true := by
  cases reg with
  | nil => rfl
  | cons e rest =>
    cases module_name with
    | none => rfl
    | some nm =>
      show closeOnlyAfterExit h (exitRemove env nm (e :: rest)).2.2 = true
      rw [exitRemove_spec]
      cases findByName nm (e :: rest) with
      | none => rfl
      | some old =>
        by_cases hc : env.closeFails old.dlhandler
        · simp [hc, closeOnlyAfterExit_pair]
        · simp [hc, closeOnlyAfterExit_pair]

theorem closeOnlyAfterExit_exitAllLoop (env : Env) (h : Nat) :
    ∀ (names : List String) (reg : List MicroModuleEntry),
      closeOnlyAfterExit h (exitAllLoop env names reg).2.2 = true := by
  intro names
  induction names with
  | nil => intro reg; rfl
  | cons nm rest ih =>
    intro reg
    simp only [exitAllLoop]
    split
    · exact closeOnlyAfterExit_exit env reg (some nm) h
    · exact closeOnlyAfterExit_append h _ _
        (closeOnlyAfterExit_exit env reg (some nm) h)
        (ih ((micro_module_exit env reg (some nm)).2.1))

theorem exit_all_ok_registry_empty (env : Env) (reg : List MicroModuleEntry)
    (hok : (micro_module_exit_all env reg).1 = MICRO_MODULE_OK) :
    (micro_module_exit_all env reg).2.1 = [] := by
  by_cases h :
      (exitAllLoop env (reg.map MicroModuleEntry.name) reg).1 = MICRO_MODULE_OK
  · simp [micro_module_exit_all, h]
  · simp only [micro_module_exit_all, h, if_false, ite_false] at hok

theorem exitRemove_fst_ne_argnull (env : Env) (nm : String)
    (reg : List MicroModuleEntry) :
    (exitRemove env nm reg).1 ≠ MICRO_MODULE_ERROR_ARG_NULL := by
  rw [exitRemove_spec]
  split
  · show MICRO_MODULE_ERROR_MODULE_NOT_REGISTERED ≠ MICRO_MODULE_ERROR_ARG_NULL
    decide
  · split
    · show MICRO_MODULE_ERROR_CLOSING_MODULE ≠ MICRO_MODULE_ERROR_ARG_NULL
      decide
    · show MICRO_MODULE_OK ≠ MICRO_MODULE_ERROR_ARG_NULL
      decide

/-! ## Concrete fixtures used by the witness theorems -/

/-- Environment where every `dlclose` succeeds and allocation succeeds. -/
def env0 : Env := ⟨fun _ => false, false⟩

/-- Environment where every `dlclose` fails (allocation succeeds). -/
def envCloseFail : Env := ⟨fun _ => true, false⟩

/-- A registered module named alpha holding handle 1. -/
def entryAlpha : MicroModuleEntry := ⟨"alpha", 1⟩

/-- A loadable file resolving to name alpha with fresh handle 2, whose
init entry point returns 0. -/
def fileAlpha : ModuleFile := ⟨2, true, true, some "alpha", 0⟩

/-! ## Claims -/

/-- C4: for every registry state and every non-null name that does not
match any registered module, `micro_module_exit` returns the
MODULE_NOT_REGISTERED error and leaves the registry completely
unchanged: no exit entry point is called, no handle is closed, no entry
is removed (the event trace is empty and the registry is returned
as-is). -/
theorem exit_unregistered_name_unchanged (env : Env)
    (reg : List MicroModuleEntry) (nm : String)
    (h : nm ∉ reg.map MicroModuleEntry.name) :
    micro_module_exit env reg (some nm) =
      (MICRO_MODULE_ERROR_MODULE_NOT_REGISTERED, reg, []) := by
  cases reg with
  | nil => rfl
  | cons e rest =>
    show exitRemove env nm (e :: rest) = _
    rw [exitRemove_spec, (findByName_eq_none nm (e :: rest)).mpr h]

theorem exit_unregistered_name_unchanged_witness :
    micro_module_exit env0 [entryAlpha] (some "beta") =
      (MICRO_MODULE_ERROR_MODULE_NOT_REGISTERED, [entryAlpha], []) :=
  exit_unregistered_name_unchanged env0 [entryAlpha] "beta" (by decide)

/-- C10: `micro_module_exit` checks for an empty registry before
validating the name argument: on an empty registry it returns
MODULE_NOT_REGISTERED for every name argument including NULL (`none`),
and the ARG_NULL error is returned only when the registry is non-empty
(and the name is NULL). -/
theorem exit_empty_registry_before_null_name (env : Env) :
    (∀ module_name : Option String,
        micro_module_exit env [] module_name =
          (MICRO_MODULE_ERROR_MODULE_NOT_REGISTERED, [], [])) ∧
    (∀ (reg : List MicroModuleEntry) (module_name : Option String),
        (micro_module_exit env reg module_name).1 = MICRO_MODULE_ERROR_ARG_NULL →
        reg ≠ [] ∧ module_name = none) := by
  constructor
  · intro module_name; rfl
  · intro reg module_name h
    cases reg with
    | nil =>
      have h₂ : MICRO_MODULE_ERROR_MODULE_NOT_REGISTERED =
          MICRO_MODULE_ERROR_ARG_NULL := h
      exact absurd h₂ (by decide)
    | cons e rest =>
      cases module_name with
      | none => exact ⟨List.cons_ne_nil e rest, rfl⟩
      | some nm =>
        exact absurd h (exitRemove_fst_ne_argnull env nm (e :: rest))

theorem exit_empty_registry_before_null_name_witness :
    micro_module_exit env0 [] none =
      (MICRO_MODULE_ERROR_MODULE_NOT_REGISTERED, [], []) ∧
    ([entryAlpha] ≠ [] ∧ (none : Option String) = none) :=
  ⟨(exit_empty_registry_before_null_name env0).1 none,
   (exit_empty_registry_before_null_name env0).2 [entryAlpha] none rfl⟩

/-- C6: if `micro_module_exit` finds the module, calls its exit entry
point, and the subsequent `dlclose` of its handle fails, the operation
returns the CLOSING_MODULE error and the entry is not removed: the
registry is returned unchanged, so the module remains findable in an
exited-but-still-tracked state. -/
theorem exit_close_fail_keeps_entry (env : Env)
    (reg : List MicroModuleEntry) (nm : String) (old : MicroModuleEntry)
    (hfind : findByName nm reg = some old)
    (hc : env.closeFails old.dlhandler = true) :
    micro_module_exit env reg (some nm) =
      (MICRO_MODULE_ERROR_CLOSING_MODULE, reg,
       [Event.callExit old.dlhandler, Event.closeHandle old.dlhandler]) := by
  cases reg with
  | nil => exact Option.noConfusion hfind
  | cons e rest =>
    show exitRemove env nm (e :: rest) = _
    rw [exitRemove_spec, hfind]
    simp [hc]

theorem exit_close_fail_keeps_entry_witness :
    micro_module_exit envCloseFail [entryAlpha] (some "alpha") =
      (MICRO_MODULE_ERROR_CLOSING_MODULE, [entryAlpha],
       [Event.callExit 1, Event.closeHandle 1]) :=
  exit_close_fail_keeps_entry envCloseFail [entryAlpha] "alpha" entryAlpha
    (by decide) (by decide)

/-- C7: `micro_module_exit_all` on an empty registry performs no
unloads and returns OK with an empty trace; and after any successful
`micro_module_exit_all` the registry is empty, so a second call in a
row succeeds again (returning OK on the empty registry). -/
theorem exit_all_empty_noop_and_idempotent :
    (∀ env : Env, micro_module_exit_all env [] = (MICRO_MODULE_OK, [], [])) ∧
    (∀ (env : Env) (reg : List MicroModuleEntry),
        (micro_module_exit_all env reg).1 = MICRO_MODULE_OK →
        micro_module_exit_all env (micro_module_exit_all env reg).2.1 =
          (MICRO_MODULE_OK, [], [])) := by
  constructor
  · intro env; rfl
  · intro env reg h
    rw [exit_all_ok_registry_empty env reg h]
    rfl

theorem exit_all_empty_noop_and_idempotent_witness :
    micro_module_exit_all env0 [] = (MICRO_MODULE_OK, [], []) ∧
    micro_module_exit_all env0 (micro_module_exit_all env0 [entryAlpha]).2.1 =
      (MICRO_MODULE_OK, [], []) :=
  ⟨exit_all_empty_noop_and_idempotent.1 env0,
   exit_all_empty_noop_and_idempotent.2 env0 [entryAlpha] (by decide)⟩

theorem micro_module_init_resolved (env : Env) (reg : List MicroModuleEntry)
    (f : ModuleFile) (nm : String)
    (hi : f.initSym = true) (he : f.exitSym = true) (hn : f.nameSym = some nm) :
    micro_module_init env reg (some f) =
      match scanReplace env ⟨nm, f.dlhandler⟩ reg with
      | .closeFailed evts =>
        (MICRO_MODULE_ERROR_CLOSING_MODULE, reg,
         evts ++ [.closeHandle f.dlhandler])
      | .replaced reg2 evts =>
        (f.initRet, reg2, evts ++ [.callInit f.dlhandler])
      | .notFound =>
        if env.mallocFails then
          (MICRO_MODULE_ERROR_ALLOCATING_MEMORY, reg, [])
        else
          (f.initRet, ⟨nm, f.dlhandler⟩ :: reg,
           [.registerModule f.dlhandler, .callInit f.dlhandler]) := by
  obtain ⟨dlh, isym, esym, nsym, iret⟩ := f
  dsimp only at hi he hn ⊢
  subst hi
  subst he
  subst hn
  rfl

/-- C2: during `micro_module_init` on an already-registered name, if
closing the old entry's handle fails, the whole operation fails with
the CLOSING_MODULE error, the registry is left unchanged, and the newly
opened handle is closed before returning (the final trace event closes
the new handle; it is not left open). -/
theorem init_reload_close_fail_closes_new (env : Env)
    (reg : List MicroModuleEntry) (f : ModuleFile) (nm : String)
    (old : MicroModuleEntry)
    (hfind : findByName nm reg = some old)
    (hi : f.initSym = true) (he : f.exitSym = true) (hn : f.nameSym = some nm)
    (hc : env.closeFails old.dlhandler = true) :
    micro_module_init env reg (some f) =
      (MICRO_MODULE_ERROR_CLOSING_MODULE, reg,
       [Event.callExit old.dlhandler, Event.closeHandle old.dlhandler,
        Event.closeHandle f.dlhandler]) := by
  rw [micro_module_init_resolved env reg f nm hi he hn, scanReplace_spec]
  dsimp only
  rw [hfind]
  simp [hc]

theorem init_reload_close_fail_closes_new_witness :
    micro_module_init envCloseFail [entryAlpha] (some fileAlpha) =
      (MICRO_MODULE_ERROR_CLOSING_MODULE, [entryAlpha],
       [Event.callExit 1, Event.closeHandle 1, Event.closeHandle 2]) :=
  init_reload_close_fail_closes_new envCloseFail [entryAlpha] fileAlpha
    "alpha" entryAlpha (by decide) (by decide) (by decide) (by decide) (by decide)

/-- C1: loading a module file whose resolved name is already registered
yields exactly one registry entry under that name, and the trace shows
the old entry's exit entry point invoked and its handle closed strictly
before the new module is written into the registry slot. -/
theorem init_reload_single_entry (env : Env) (reg : List MicroModuleEntry)
    (f : ModuleFile) (nm : String) (old : MicroModuleEntry)
    (hu : uniqueNames reg)
    (hfind : findByName nm reg = some old)
    (hi : f.initSym = true) (he : f.exitSym = true) (hn : f.nameSym = some nm)
    (hc : env.closeFails old.dlhandler = false) :
    countName nm (micro_module_init env reg (some f)).2.1 = 1 ∧
    (micro_module_init env reg (some f)).2.2 =
      [Event.callExit old.dlhandler, Event.closeHandle old.dlhandler,
       Event.registerModule f.dlhandler, Event.callInit f.dlhandler] := by
  have hred : micro_module_init env reg (some f) =
      (f.initRet, replaceFirst ⟨nm, f.dlhandler⟩ reg,
       [Event.callExit old.dlhandler, Event.closeHandle old.dlhandler,
        Event.registerModule f.dlhandler, Event.callInit f.dlhandler]) := by
    rw [micro_module_init_resolved env reg f nm hi he hn, scanReplace_spec]
    dsimp only
    rw [hfind]
    simp [hc]
  rw [hred]
  refine ⟨?_, rfl⟩
  show countName nm (replaceFirst ⟨nm, f.dlhandler⟩ reg) = 1
  rw [countName_eq_count, replaceFirst_map_name]
  exact List.count_eq_one_of_mem hu (mem_map_name_of_findByName hfind)

theorem init_reload_single_entry_witness :
    countName "alpha"
        (micro_module_init env0 [entryAlpha] (some fileAlpha)).2.1 = 1 ∧
    (micro_module_init env0 [entryAlpha] (some fileAlpha)).2.2 =
      [Event.callExit 1, Event.closeHandle 1,
       Event.registerModule 2, Event.callInit 2] :=
  init_reload_single_entry env0 [entryAlpha] fileAlpha "alpha" entryAlpha
    (by decide) (by decide) (by decide) (by decide) (by decide) (by decide)

/-- C3: when the loaded module's init entry point returns a non-zero
value, the module remains registered (its name is in the resulting
registry) and that value is the operation's result verbatim, not mapped
to any MICRO_MODULE_ERROR_ code. -/
theorem init_entry_nonzero_verbatim (env : Env)
    (reg : List MicroModuleEntry) (f : ModuleFile) (nm : String)
    (hi : f.initSym = true) (he : f.exitSym = true) (hn : f.nameSym = some nm)
    (hm : env.mallocFails = false)
    (hc : ∀ old, findByName nm reg = some old →
        env.closeFails old.dlhandler = false)
    (_hnz : f.initRet ≠ 0) :
    (micro_module_init env reg (some f)).1 = f.initRet ∧
    nm ∈ (micro_module_init env reg (some f)).2.1.map MicroModuleEntry.name := by
  rw [micro_module_init_resolved env reg f nm hi he hn, scanReplace_spec]
  dsimp only
  cases hfind : findByName nm reg with
  | none =>
    simp [hm]
  | some old =>
    have hcold := hc old hfind
    simp only [hcold, Bool.false_eq_true, if_false]
    refine ⟨by trivial, ?_⟩
    show nm ∈ (replaceFirst ⟨nm, f.dlhandler⟩ reg).map MicroModuleEntry.name
    rw [replaceFirst_map_name]
    exact mem_map_name_of_findByName hfind

theorem init_entry_nonzero_verbatim_witness :
    (micro_module_init env0 [] (some ⟨5, true, true, some "gamma", 42⟩)).1 = 42 ∧
    "gamma" ∈ (micro_module_init env0 []
        (some ⟨5, true, true, some "gamma", 42⟩)).2.1.map
        MicroModuleEntry.name :=
  init_entry_nonzero_verbatim env0 [] ⟨5, true, true, some "gamma", 42⟩ "gamma"
    (by decide) (by decide) (by decide) (by decide)
    (fun old h => Option.noConfusion h) (by decide)

/-- C5: `micro_module_init_all` applies `micro_module_init` to each
candidate path in order and returns the first failure immediately, the
remaining paths never being attempted (the loop's outcome on a failing
head does not depend on the tail); concretely, over files A, B, C where
B fails exit-symbol resolution, A is loaded, the operation fails on B
with the corresponding error, C is never attempted, and the registry
afterwards contains exactly A's module. -/
theorem init_all_stops_at_first_failure :
    (∀ (env : Env) (reg : List MicroModuleEntry) (f : Option ModuleFile)
        (rest : List (Option ModuleFile)),
        (micro_module_init env reg f).1 ≠ MICRO_MODULE_OK →
        initAllLoop env reg (f :: rest) = micro_module_init env reg f) ∧
    (∀ (env : Env) (reg : List MicroModuleEntry) (f : Option ModuleFile)
        (rest : List (Option ModuleFile)) (ftsCloseOk : Bool),
        (micro_module_init env reg f).1 ≠ MICRO_MODULE_OK →
        micro_module_init_all env reg true (f :: rest) ftsCloseOk =
          micro_module_init env reg f) ∧
    micro_module_init_all env0 [] true
        [some ⟨1, true, true, some "A", 0⟩,
         some ⟨2, true, false, some "B", 0⟩,
         some ⟨3, true, true, some "C", 0⟩] true =
      (MICRO_MODULE_ERROR_LOCATING_EXIT_SYMBOL, [⟨"A", 1⟩],
       [Event.registerModule 1, Event.callInit 1, Event.closeHandle 2]) := by
  have hloop : ∀ (env : Env) (reg : List MicroModuleEntry) (f : Option ModuleFile)
      (rest : List (Option ModuleFile)),
      (micro_module_init env reg f).1 ≠ MICRO_MODULE_OK →
      initAllLoop env reg (f :: rest) = micro_module_init env reg f := by
    intro env reg f rest hfail
    simp only [initAllLoop]
    rw [if_pos hfail]
  refine ⟨hloop, ?_, rfl⟩
  intro env reg f rest ftsCloseOk hfail
  simp only [micro_module_init_all, hloop env reg f rest hfail]
  rw [if_neg (by decide), if_neg (fun hand => hfail hand.2)]

theorem init_all_stops_at_first_failure_witness :
    initAllLoop env0 [] [none, some ⟨7, true, true, some "delta", 0⟩] =
      micro_module_init env0 [] none :=
  init_all_stops_at_first_failure.1 env0 [] none
    [some ⟨7, true, true, some "delta", 0⟩] (by decide)

/-! ## Uniqueness-invariant helpers -/

theorem micro_module_init_registry (env : Env) (reg : List MicroModuleEntry)
    (file : Option ModuleFile) :
    (micro_module_init env reg file).2.1 = reg ∨
    (∃ nm dlh, (micro_module_init env reg file).2.1 = ⟨nm, dlh⟩ :: reg ∧
        nm ∉ reg.map MicroModuleEntry.name) ∨
    (∃ newMod, (micro_module_init env reg file).2.1 = replaceFirst newMod reg) := by
  cases file with
  | none => exact Or.inl rfl
  | some f =>
    obtain ⟨dlh, isym, esym, nsym, iret⟩ := f
    cases isym with
    | false => exact Or.inl rfl
    | true =>
      cases esym with
      | false => exact Or.inl rfl
      | true =>
        cases nsym with
        | none => exact Or.inl rfl
        | some nm =>
          rw [micro_module_init_resolved env reg ⟨dlh, true, true, some nm, iret⟩
                nm rfl rfl rfl, scanReplace_spec]
          dsimp only
          cases hfind : findByName nm reg with
          | none =>
            cases hm : env.mallocFails with
            | true => exact Or.inl rfl
            | false =>
              exact Or.inr (Or.inl ⟨nm, dlh, rfl, (findByName_eq_none nm reg).mp hfind⟩)
          | some old =>
            dsimp only
            by_cases hc : env.closeFails old.dlhandler
            · rw [if_pos hc]
              exact Or.inl rfl
            · rw [if_neg hc]
              exact Or.inr (Or.inr ⟨⟨nm, dlh⟩, rfl⟩)

theorem micro_module_exit_registry (env : Env) (reg : List MicroModuleEntry)
    (module_name : Option String) :
    (micro_module_exit env reg module_name).2.1 = reg ∨
    ∃ nm, (micro_module_exit env reg module_name).2.1 = removeFirst nm reg := by
  cases reg with
  | nil => exact Or.inl rfl
  | cons e rest =>
    cases module_name with
    | none => exact Or.inl rfl
    | some nm =>
      show (exitRemove env nm (e :: rest)).2.1 = e :: rest ∨
        ∃ nm₂, (exitRemove env nm (e :: rest)).2.1 = removeFirst nm₂ (e :: rest)
      rw [exitRemove_spec]
      cases findByName nm (e :: rest) with
      | none => exact Or.inl rfl
      | some old =>
        dsimp only
        by_cases hc : env.closeFails old.dlhandler
        · rw [if_pos hc]
          exact Or.inl rfl
        · rw [if_neg hc]
          exact Or.inr ⟨nm, rfl⟩

theorem uniqueNames_init (env : Env) (reg : List MicroModuleEntry)
    (file : Option ModuleFile) (hu : uniqueNames reg) :
    uniqueNames (micro_module_init env reg file).2.1 := by
  rcases micro_module_init_registry env reg file with
    h | ⟨nm, dlh, h, hmem⟩ | ⟨newMod, h⟩
  · rw [h]; exact hu
  · rw [h]
    unfold uniqueNames at *
    rw [List.map_cons]
    exact List.nodup_cons.mpr ⟨hmem, hu⟩
  · rw [h]
    unfold uniqueNames at *
    rw [replaceFirst_map_name]
    exact hu

theorem uniqueNames_exit (env : Env) (reg : List MicroModuleEntry)
    (module_name : Option String) (hu : uniqueNames reg) :
    uniqueNames (micro_module_exit env reg module_name).2.1 := by
  rcases micro_module_exit_registry env reg module_name with h | ⟨nm, h⟩
  · rw [h]; exact hu
  · rw [h]
    unfold uniqueNames at *
    exact List.Nodup.sublist ((removeFirst_sublist nm reg).map _) hu

theorem uniqueNames_exitAllLoop (env : Env) (names : List String) :
    ∀ reg : List MicroModuleEntry, uniqueNames reg →
      uniqueNames (exitAllLoop env names reg).2.1 := by
  induction names with
  | nil => intro reg hu; exact hu
  | cons nm rest ih =>
    intro reg hu
    simp only [exitAllLoop]
    split
    · exact uniqueNames_exit env reg (some nm) hu
    · exact ih _ (uniqueNames_exit env reg (some nm) hu)

theorem uniqueNames_exit_all (env : Env) (reg : List MicroModuleEntry)
    (hu : uniqueNames reg) :
    uniqueNames (micro_module_exit_all env reg).2.1 := by
  by_cases hok :
      (exitAllLoop env (reg.map MicroModuleEntry.name) reg).1 = MICRO_MODULE_OK
  · simp only [micro_module_exit_all, hok, if_true]
    exact List.nodup_nil
  · simp only [micro_module_exit_all, hok, if_false, ite_false]
    exact uniqueNames_exitAllLoop env _ reg hu

theorem uniqueNames_initAllLoop (env : Env) (files : List (Option ModuleFile)) :
    ∀ reg : List MicroModuleEntry, uniqueNames reg →
      uniqueNames (initAllLoop env reg files).2.1 := by
  induction files with
  | nil => intro reg hu; exact hu
  | cons f rest ih =>
    intro reg hu
    simp only [initAllLoop]
    split
    · exact uniqueNames_init env reg f hu
    · exact ih _ (uniqueNames_init env reg f hu)

theorem uniqueNames_init_all (env : Env) (reg : List MicroModuleEntry)
    (ftsOpenOk : Bool) (files : List (Option ModuleFile)) (ftsCloseOk : Bool)
    (hu : uniqueNames reg) :
    uniqueNames (micro_module_init_all env reg ftsOpenOk files ftsCloseOk).2.1 := by
  by_cases ho : ftsOpenOk = false
  · simp only [micro_module_init_all, ho, if_true]
    exact hu
  · simp only [micro_module_init_all, ho, if_false, ite_false]
    by_cases hcond : ftsCloseOk = false ∧
        (initAllLoop env reg files).1 = MICRO_MODULE_OK
    · rw [if_pos hcond]
      exact uniqueNames_initAllLoop env files reg hu
    · rw [if_neg hcond]
      exact uniqueNames_initAllLoop env files reg hu

/-- C8: name uniqueness is an invariant of the registry preserved by
every operation: if each name appears in at most one entry beforehand,
the same holds after `micro_module_init` (which replaces in place when
the name exists and prepends only when it does not), after
`micro_module_exit` (which removes at most one entry), and after the
bulk operations. -/
theorem registry_name_uniqueness_invariant :
    (∀ (env : Env) (reg : List MicroModuleEntry) (file : Option ModuleFile),
        uniqueNames reg → uniqueNames (micro_module_init env reg file).2.1) ∧
    (∀ (env : Env) (reg : List MicroModuleEntry) (module_name : Option String),
        uniqueNames reg → uniqueNames (micro_module_exit env reg module_name).2.1) ∧
    (∀ (env : Env) (reg : List MicroModuleEntry),
        uniqueNames reg → uniqueNames (micro_module_exit_all env reg).2.1) ∧
    (∀ (env : Env) (reg : List MicroModuleEntry) (ftsOpenOk : Bool)
        (files : List (Option ModuleFile)) (ftsCloseOk : Bool),
        uniqueNames reg →
        uniqueNames (micro_module_init_all env reg ftsOpenOk files ftsCloseOk).2.1) :=
  ⟨uniqueNames_init, uniqueNames_exit, uniqueNames_exit_all, uniqueNames_init_all⟩

theorem registry_name_uniqueness_invariant_witness :
    uniqueNames (micro_module_init env0 [entryAlpha] (some fileAlpha)).2.1 :=
  registry_name_uniqueness_invariant.1 env0 [entryAlpha] (some fileAlpha)
    (by decide)

/-! ## Exit-before-close ordering -/

theorem coae_single_close (h o : Nat) (hne : o ≠ h) :
    closeOnlyAfterExit h [Event.closeHandle o] = true := by
  simp [closeOnlyAfterExit, hne]

theorem coae_close_fail_trace (h o n : Nat) (hne : n ≠ h) :
    closeOnlyAfterExit h
      [Event.callExit o, Event.closeHandle o, Event.closeHandle n] = true := by
  by_cases ho : o = h <;> simp [closeOnlyAfterExit, ho, hne]

theorem coae_replaced_trace (h o n m : Nat) :
    closeOnlyAfterExit h
      [Event.callExit o, Event.closeHandle o,
       Event.registerModule n, Event.callInit m] = true := by
  by_cases ho : o = h <;> simp [closeOnlyAfterExit, ho]

theorem coae_fresh_trace (h n m : Nat) :
    closeOnlyAfterExit h [Event.registerModule n, Event.callInit m] = true := by
  simp [closeOnlyAfterExit]

theorem closeOnlyAfterExit_init (env : Env) (reg : List MicroModuleEntry)
    (f : ModuleFile) (h : Nat) (hne : h ≠ f.dlhandler) :
    closeOnlyAfterExit h (micro_module_init env reg (some f)).2.2 = true := by
  have hne₂ : f.dlhandler ≠ h := fun hx => hne hx.symm
  obtain ⟨dlh, isym, esym, nsym, iret⟩ := f
  dsimp only at hne₂
  cases isym with
  | false => exact coae_single_close h dlh hne₂
  | true =>
    cases esym with
    | false => exact coae_single_close h dlh hne₂
    | true =>
      cases nsym with
      | none => exact coae_single_close h dlh hne₂
      | some nm =>
        rw [micro_module_init_resolved env reg ⟨dlh, true, true, some nm, iret⟩
              nm rfl rfl rfl, scanReplace_spec]
        dsimp only
        cases hfind : findByName nm reg with
        | none =>
          cases hm : env.mallocFails with
          | true => rfl
          | false => exact coae_fresh_trace h dlh dlh
        | some old =>
          dsimp only
          by_cases hc : env.closeFails old.dlhandler
          · rw [if_pos hc]
            exact coae_close_fail_trace h old.dlhandler dlh hne₂
          · rw [if_neg hc]
            exact coae_replaced_trace h old.dlhandler dlh dlh

/-- C9: in every operation of the system — single unload, load-or-reload
of an existing name, bulk unload — a registered module's handle is
closed only after that module's exit entry point has been called and
returned, never before: every `closeHandle h` in the trace is preceded
by a `callExit h`.  For load-or-reload this holds for every handle
other than the fresh handle `dlmopen` returned for the new image (which
is never a registered module's handle, since the old image is still
open when the new one is mapped). -/
theorem handle_closed_only_after_module_exit :
    (∀ (env : Env) (reg : List MicroModuleEntry)
        (module_name : Option String) (h : Nat),
        closeOnlyAfterExit h (micro_module_exit env reg module_name).2.2 = true) ∧
    (∀ (env : Env) (reg : List MicroModuleEntry) (f : ModuleFile) (h : Nat),
        h ≠ f.dlhandler →
        closeOnlyAfterExit h (micro_module_init env reg (some f)).2.2 = true) ∧
    (∀ (env : Env) (reg : List MicroModuleEntry) (h : Nat),
        closeOnlyAfterExit h (micro_module_exit_all env reg).2.2 = true) := by
  refine ⟨closeOnlyAfterExit_exit,
          fun env reg f h hne => closeOnlyAfterExit_init env reg f h hne,
          fun env reg h => ?_⟩
  have htr : (micro_module_exit_all env reg).2.2 =
      (exitAllLoop env (reg.map MicroModuleEntry.name) reg).2.2 := by
    by_cases hok :
        (exitAllLoop env (reg.map MicroModuleEntry.name) reg).1 = MICRO_MODULE_OK
    · simp [micro_module_exit_all, hok]
    · simp [micro_module_exit_all, hok]
  rw [htr]
  exact closeOnlyAfterExit_exitAllLoop env h _ reg

theorem handle_closed_only_after_module_exit_witness :
    closeOnlyAfterExit 1 (micro_module_init env0 [entryAlpha]
      (some fileAlpha)).2.2 = true :=
  handle_closed_only_after_module_exit.2.1 env0 [entryAlpha] fileAlpha 1
    (by decide)

end MicroModuleLib
